import Mathlib

/-!
Shallow embedding of the fcm-rust client (`src/client/mod.rs`): the
response-classification half of `Client::send`, the `Retry-After` header
extraction, and the outbound-payload serialization.

The repository source available here is `src/client/mod.rs` alone; the
`client/response` module (`ErrorReason`, `FcmResponse`, `FcmError`,
`RetryAfter` and its string parser) and the message types are declared
elsewhere in the repository.  Those parts are modelled from the spec and
marked as such in their doc comments.  Everything else is translated
directly from `mod.rs`.
-/

namespace FcmRust

/-- Modelled from the spec: the error-reason values carried in a 200 body.
Recognized values are at minimum `UNAVAILABLE` (constructor `Unavailable`)
and `INTERNAL` (constructor `InternalServerError`, matching the Rust
variant name matched in `mod.rs`); other provider-defined reasons are
represented by `Other`. -/
inductive ErrorReason where
  | Unavailable
  | InternalServerError
  | Other (tag : String)
deriving DecidableEq

/-- Modelled from the spec: the deserialized success-shaped body returned
by the provider, containing an optional error-reason field and otherwise
provider-defined delivery metadata (opaque to this client; kept here as a
list of key/value pairs so that pass-through can be stated). -/
structure FcmResponse where
  error : Option ErrorReason
  metadata : List (String × String)
deriving DecidableEq

/-- Modelled from the spec: an absolute retry timestamp carried by an
HTTP-date form of the `Retry-After` header (IMF-fixdate components). -/
structure HttpDate where
  day : Nat
  month : Nat
  year : Nat
  hour : Nat
  minute : Nat
  second : Nat
deriving DecidableEq

/-- Modelled from the spec: a `Retry-After` value is either a delay
duration (in seconds) or an absolute retry timestamp. -/
inductive RetryAfter where
  | Delay (seconds : Nat)
  | DateTime (date : HttpDate)
deriving DecidableEq

/-- The classified error taxonomy returned by `send`
(`FcmError` in `client/response`, as used by `mod.rs`):
`Unauthorized` (no payload), `InvalidMessage` with a human-readable
detail, `ServerError` with an optional `RetryAfter`. -/
inductive FcmError where
  | Unauthorized
  | InvalidMessage (detail : String)
  | ServerError (retryAfter : Option RetryAfter)
deriving DecidableEq

/-- Weekday abbreviations of the IMF-fixdate form of an HTTP-date. -/
def dayNames : List String := ["Mon", "Tue", "Wed", "Thu", "Fri", "Sat", "Sun"]

/-- Month abbreviations of the IMF-fixdate form of an HTTP-date. -/
def monthNames : List String :=
  ["Jan", "Feb", "Mar", "Apr", "May", "Jun", "Jul", "Aug", "Sep", "Oct", "Nov", "Dec"]

/-- Numeric value of a decimal digit character. -/
def digitVal (c : Char) : Nat := c.toNat - 48

/-- Modelled from the spec: parse the HTTP-date form of `Retry-After`
(IMF-fixdate, e.g. `Sun, 06 Nov 1994 08:49:37 GMT`); `none` on any
malformed input. -/
def parseHttpDate (s : String) : Option HttpDate :=
  match s.toList with
  | [a, b, c, ',', ' ', d1, d2, ' ', m1, m2, m3, ' ', y1, y2, y3, y4, ' ',
     h1, h2, ':', n1, n2, ':', t1, t2, ' ', 'G', 'M', 'T'] =>
    match monthNames.findIdx? (fun nm => nm = String.mk [m1, m2, m3]) with
    | none => none
    | some monIdx =>
      if dayNames.contains (String.mk [a, b, c]) ∧
          d1.isDigit ∧ d2.isDigit ∧ y1.isDigit ∧ y2.isDigit ∧ y3.isDigit ∧ y4.isDigit ∧
          h1.isDigit ∧ h2.isDigit ∧ n1.isDigit ∧ n2.isDigit ∧ t1.isDigit ∧ t2.isDigit then
        let day := digitVal d1 * 10 + digitVal d2
        let year := digitVal y1 * 1000 + digitVal y2 * 100 + digitVal y3 * 10 + digitVal y4
        let hour := digitVal h1 * 10 + digitVal h2
        let minute := digitVal n1 * 10 + digitVal n2
        let second := digitVal t1 * 10 + digitVal t2
        if 1 ≤ day ∧ day ≤ 31 ∧ hour ≤ 23 ∧ minute ≤ 59 ∧ second ≤ 59 then
          some ⟨day, monIdx + 1, year, hour, minute, second⟩
        else none
      else none
  | _ => none

/-- Modelled from the spec: the delay-in-seconds form of `Retry-After` —
a non-empty all-digit string read as a decimal number; `none` otherwise. -/
def parseSeconds (s : String) : Option Nat :=
  match s.toList with
  | [] => none
  | c :: cs =>
    if (c :: cs).all Char.isDigit then
      some ((c :: cs).foldl (fun acc d => acc * 10 + digitVal d) 0)
    else none

/-- Modelled from the spec: `RetryAfter`'s string parser (the `FromStr`
used by `ra.parse::<RetryAfter>()` in `mod.rs`, declared in
`client/response`): attempt the delay-in-seconds form first, then the
HTTP-date form; `none` when neither parses. -/
def parseRetryAfter (s : String) : Option RetryAfter :=
  match parseSeconds s with
  | some n => some (RetryAfter.Delay n)
  | none => (parseHttpDate s).map RetryAfter.DateTime

/-- A header-value byte is visible ASCII (or horizontal tab), the
condition under which the HTTP library's `HeaderValue::to_str` succeeds. -/
def isVisibleAscii (b : Nat) : Bool := b = 9 || (32 ≤ b && b < 127)

/-- `HeaderValue::to_str().ok()` from `mod.rs`: the raw header bytes as a
string when they are all visible ASCII, otherwise `none`. -/
def headerToStr (bytes : List Nat) : Option String :=
  if bytes.all isVisibleAscii then some (String.mk (bytes.map Char.ofNat)) else none

/-- The `retry_after` computation in `Client::send`:
`response.headers().get(RETRY_AFTER).and_then(to_str.ok).and_then(parse.ok)`.
The argument is the raw bytes of the `Retry-After` header when present. -/
def extractRetryAfter (header : Option (List Nat)) : Option RetryAfter :=
  (header.bind headerToStr).bind (fun s => parseRetryAfter s)

/-- The parts of the received HTTP response consumed by `Client::send`:
the status code, the raw `Retry-After` header bytes when the header is
present, and the two fallible body views the Rust code unwraps —
`bodyFcm` is the outcome of `response.json::<FcmResponse>().await`
(`none` = read/parse failure) and `bodyText` the outcome of
`response.text().await` (`none` = read failure). -/
structure HttpResponse where
  status : Nat
  retryAfterBytes : Option (List Nat)
  bodyFcm : Option FcmResponse
  bodyText : Option String
deriving DecidableEq

/-- The observable outcome of `Client::send` once an HTTP response has
been received: `ok` (the Rust `Ok(FcmResponse)`), `err` (the Rust
`Err(FcmError)`), or `panicked` — the `.unwrap()` calls in `send` abort
instead of returning when a body read/parse fails. -/
inductive SendResult where
  | ok (response : FcmResponse)
  | err (error : FcmError)
  | panicked
deriving DecidableEq

/-- The response-classification logic of `Client::send` (`mod.rs`,
lines 55-81), translated arm by arm: compute `retry_after` from the
header, then match on the status code — 200 parses the body and inspects
its error reason, 401 maps to `Unauthorized` without touching the body,
400 reads the body text into `InvalidMessage`, any 5xx maps to
`ServerError retry_after`, anything else to
`InvalidMessage "Unknown Error"`. -/
def send (resp : HttpResponse) : SendResult :=
  let retryAfter := extractRetryAfter resp.retryAfterBytes
  if resp.status = 200 then
    match resp.bodyFcm with
    | none => SendResult.panicked
    | some fcm =>
      match fcm.error with
      | some ErrorReason.Unavailable => SendResult.err (FcmError.ServerError retryAfter)
      | some ErrorReason.InternalServerError => SendResult.err (FcmError.ServerError retryAfter)
      | _ => SendResult.ok fcm
  else if resp.status = 401 then
    SendResult.err FcmError.Unauthorized
  else if resp.status = 400 then
    match resp.bodyText with
    | none => SendResult.panicked
    | some body => SendResult.err (FcmError.InvalidMessage ("Bad Request (" ++ body))
  else if 500 ≤ resp.status ∧ resp.status ≤ 599 then
    SendResult.err (FcmError.ServerError retryAfter)
  else
    SendResult.err (FcmError.InvalidMessage "Unknown Error")

/-- JSON values, as produced by the serialization library used for the
outbound body. -/
inductive Json where
  | null
  | bool (b : Bool)
  | num (n : Int)
  | str (s : String)
  | arr (elems : List Json)
  | obj (fields : List (String × Json))

/-- One hexadecimal digit (lowercase), for JSON escapes of control
characters. -/
def hexDigit (n : Nat) : Char :=
  if n < 10 then Char.ofNat (48 + n) else Char.ofNat (87 + n)

/-- Four-digit hexadecimal form of a code point, for `\u00XX` escapes. -/
def hex4 (n : Nat) : String :=
  String.mk [hexDigit (n / 4096 % 16), hexDigit (n / 256 % 16),
             hexDigit (n / 16 % 16), hexDigit (n % 16)]

/-- JSON escaping of a single character, as the serialization library
performs it on string contents. -/
def escapeChar (c : Char) : String :=
  if c = '"' then "\\\""
  else if c = '\\' then "\\\\"
  else if c = '\n' then "\\n"
  else if c = '\r' then "\\r"
  else if c = '\t' then "\\t"
  else if c.toNat = 8 then "\\b"
  else if c.toNat = 12 then "\\f"
  else if c.toNat < 32 then "\\u" ++ hex4 c.toNat
  else String.singleton c

/-- A JSON string literal: quoted, contents escaped. -/
def escapeString (s : String) : String :=
  "\"" ++ String.join (s.toList.map escapeChar) ++ "\""

mutual

/-- Compact JSON rendering (`serde_json::to_vec`), as bytes-as-string. -/
def renderJson : Json → String
  | Json.null => "null"
  | Json.bool true => "true"
  | Json.bool false => "false"
  | Json.num n => toString n
  | Json.str s => escapeString s
  | Json.arr es => "[" ++ renderElems es ++ "]"
  | Json.obj fs => "\x7b" ++ renderFields fs ++ "\x7d"

/-- Comma-separated rendering of array elements. -/
def renderElems : List Json → String
  | [] => ""
  | [x] => renderJson x
  | x :: y :: xs => renderJson x ++ "," ++ renderElems (y :: xs)

/-- Comma-separated rendering of object fields. -/
def renderFields : List (String × Json) → String
  | [] => ""
  | [(k, v)] => escapeString k ++ ":" ++ renderJson v
  | (k, v) :: f :: fs => escapeString k ++ ":" ++ renderJson v ++ "," ++ renderFields (f :: fs)

end

/-- Modelled from the spec: the finalized internal form of a message is
opaque to this client beyond being serializable, so it is represented by
its JSON serialization. -/
structure MessageInternal where
  toJson : Json

/-- Modelled from the spec: the caller-supplied message, already carrying
its finalized form (finalization happens before this client is involved). -/
structure Message where
  finalized : MessageInternal

/-- `message.finalize()` as called at the top of `Client::send`
(modelled from the spec: finalization is external, `send` merely invokes
it to obtain the `MessageInternal`). -/
def Message.finalize (m : Message) : MessageInternal := m.finalized

/-- `MessageWrapper` from `mod.rs`: wraps the message so it is serialized
under a single field renamed to `"message"`. -/
structure MessageWrapper where
  message : MessageInternal

/-- The serde `Serialize` derive on `MessageWrapper`: a JSON object with
exactly the one field, under the renamed key `"message"`. -/
def MessageWrapper.toJson (w : MessageWrapper) : Json :=
  Json.obj [("message", w.message.toJson)]

/-- The outbound payload built by `Client::send`:
`serde_json::to_vec(&MessageWrapper::new(&message.finalize()))`. -/
def sendPayload (m : Message) : String :=
  renderJson (MessageWrapper.toJson ⟨m.finalize⟩)

theorem str_append_empty (s : String) : s ++ "" = s := by
  cases s with
  | mk data =>
    show String.mk (data ++ []) = String.mk data
    rw [List.append_nil]

theorem send_server_error_of_5xx (resp : HttpResponse)
    (hlo : 500 ≤ resp.status) (hhi : resp.status ≤ 599) :
    send resp = SendResult.err (FcmError.ServerError (extractRetryAfter resp.retryAfterBytes)) := by
  have h200 : ¬ resp.status = 200 := by omega
  have h401 : ¬ resp.status = 401 := by omega
  have h400 : ¬ resp.status = 400 := by omega
  simp [send, h200, h401, h400, hlo, hhi]

example : extractRetryAfter (some [49, 50, 48]) = some (RetryAfter.Delay 120) := by decide
example : extractRetryAfter none = none := by rfl
example : parseRetryAfter "garbage" = none := by decide
example : send ⟨200, none, none, none⟩ = SendResult.panicked := by rfl
example : send ⟨401, none, none, none⟩ = SendResult.err FcmError.Unauthorized := by rfl
example : send ⟨418, none, none, none⟩ =
    SendResult.err (FcmError.InvalidMessage "Unknown Error") := by rfl
example :
    parseHttpDate "Sun, 06 Nov 1994 08:49:37 GMT" = some ⟨6, 11, 1994, 8, 49, 37⟩ := by decide

/-- C1: a 200-status response whose body's error-reason is `UNAVAILABLE`
or `INTERNAL` yields `ServerError` carrying the retry-after parsed from
the `Retry-After` header, and is never returned as a success `Response`. -/
theorem send_embedded_error_is_server_error (resp : HttpResponse) (fcm : FcmResponse)
    (hs : resp.status = 200) (hb : resp.bodyFcm = some fcm)
    (he : fcm.error = some ErrorReason.Unavailable ∨
      fcm.error = some ErrorReason.InternalServerError) :
    send resp = SendResult.err (FcmError.ServerError (extractRetryAfter resp.retryAfterBytes)) ∧
      ∀ r, send resp ≠ SendResult.ok r := by
  have hmain :
      send resp =
        SendResult.err (FcmError.ServerError (extractRetryAfter resp.retryAfterBytes)) := by
    rcases he with h | h <;> simp [send, hs, hb, h]
  refine ⟨hmain, fun r hr => ?_⟩
  rw [hmain] at hr
  exact SendResult.noConfusion hr

/-- C1 witness: 200 body with error `UNAVAILABLE`, header `Retry-After: 120`. -/
theorem send_embedded_error_is_server_error_witness :
    send ⟨200, some [49, 50, 48], some ⟨some ErrorReason.Unavailable, []⟩, none⟩ =
      SendResult.err (FcmError.ServerError (some (RetryAfter.Delay 120))) :=
  (send_embedded_error_is_server_error
    ⟨200, some [49, 50, 48], some ⟨some ErrorReason.Unavailable, []⟩, none⟩
    ⟨some ErrorReason.Unavailable, []⟩ rfl rfl (Or.inl rfl)).1.trans (by decide)

/-- C2 counterexample: on a 200-status response whose body does not parse
as a `Response`, `send` panics (the `.unwrap()` in `mod.rs` line 65)
instead of producing either a success `Response` or a `ClassifiedError`. -/
theorem send_unparseable_200_body_panics :
    send ⟨200, none, none, none⟩ = SendResult.panicked := by rfl

/-- C2 (amended): whenever the body reads the classification needs do
succeed (the 200-status body parses as a `Response`, the 400-status body
reads as text), `send` produces exactly one of
{successful `Response`, `ClassifiedError`} — never both, never neither. -/
theorem send_total_of_bodies (resp : HttpResponse)
    (h200 : resp.status = 200 → resp.bodyFcm ≠ none)
    (h400 : resp.status = 400 → resp.bodyText ≠ none) :
    ((∃ r, send resp = SendResult.ok r) ∨ (∃ e, send resp = SendResult.err e)) ∧
      ¬ ((∃ r, send resp = SendResult.ok r) ∧ ∃ e, send resp = SendResult.err e) := by
  constructor
  · by_cases hs : resp.status = 200
    · cases hb : resp.bodyFcm with
      | none => exact absurd hb (h200 hs)
      | some fcm =>
        cases he : fcm.error with
        | none => exact Or.inl ⟨fcm, by simp [send, hs, hb, he]⟩
        | some er =>
          cases er with
          | Unavailable =>
            exact Or.inr ⟨FcmError.ServerError (extractRetryAfter resp.retryAfterBytes),
              by simp [send, hs, hb, he]⟩
          | InternalServerError =>
            exact Or.inr ⟨FcmError.ServerError (extractRetryAfter resp.retryAfterBytes),
              by simp [send, hs, hb, he]⟩
          | Other tag => exact Or.inl ⟨fcm, by simp [send, hs, hb, he]⟩
    · by_cases h1 : resp.status = 401
      · exact Or.inr ⟨FcmError.Unauthorized, by simp [send, hs, h1]⟩
      · by_cases h4 : resp.status = 400
        · cases hb : resp.bodyText with
          | none => exact absurd hb (h400 h4)
          | some body =>
            exact Or.inr ⟨FcmError.InvalidMessage ("Bad Request (" ++ body),
              by simp [send, hs, h1, h4, hb]⟩
        · by_cases h5 : 500 ≤ resp.status ∧ resp.status ≤ 599
          · exact Or.inr ⟨FcmError.ServerError (extractRetryAfter resp.retryAfterBytes),
              by simp [send, hs, h1, h4, h5]⟩
          · exact Or.inr ⟨FcmError.InvalidMessage "Unknown Error",
              by simp [send, hs, h1, h4, h5]⟩
  · rintro ⟨⟨r, hr⟩, ⟨e, heq⟩⟩
    rw [hr] at heq
    exact SendResult.noConfusion heq

/-- C2 witness: a 418-status response (bodies unread) produces exactly
one outcome. -/
theorem send_total_of_bodies_witness :
    ((∃ r, send ⟨418, none, none, none⟩ = SendResult.ok r) ∨
      (∃ e, send ⟨418, none, none, none⟩ = SendResult.err e)) ∧
      ¬ ((∃ r, send ⟨418, none, none, none⟩ = SendResult.ok r) ∧
        ∃ e, send ⟨418, none, none, none⟩ = SendResult.err e) :=
  send_total_of_bodies ⟨418, none, none, none⟩ (by decide) (by decide)

/-- C3: a 400-status response with body text `B` yields `InvalidMessage`
whose detail contains `B` verbatim as a substring. -/
theorem send_badRequest_embeds_body (resp : HttpResponse) (B : String)
    (hs : resp.status = 400) (hb : resp.bodyText = some B) :
    ∃ pre post,
      send resp = SendResult.err (FcmError.InvalidMessage (pre ++ B ++ post)) := by
  refine ⟨"Bad Request (", "", ?_⟩
  have h200 : ¬ resp.status = 200 := by omega
  have h401 : ¬ resp.status = 401 := by omega
  rw [str_append_empty]
  simp [send, h200, h401, hs, hb]

/-- C3 witness: body `"project not found"` appears in the detail. -/
theorem send_badRequest_embeds_body_witness :
    ∃ pre post,
      send ⟨400, none, none, some "project not found"⟩ =
        SendResult.err (FcmError.InvalidMessage (pre ++ "project not found" ++ post)) :=
  send_badRequest_embeds_body ⟨400, none, none, some "project not found"⟩
    "project not found" rfl rfl

/-- C4: any 5xx-status response yields `ServerError` carrying the
retry-after parsed from the `Retry-After` header. -/
theorem send_5xx_server_error (resp : HttpResponse)
    (h5 : 500 ≤ resp.status ∧ resp.status ≤ 599) :
    send resp = SendResult.err (FcmError.ServerError (extractRetryAfter resp.retryAfterBytes)) :=
  send_server_error_of_5xx resp h5.1 h5.2

/-- C4 witness: status 500 with header `Retry-After: 120` (bytes of the
ASCII string `120`) yields `ServerError` with a 120-second delay. -/
theorem send_5xx_server_error_witness :
    send ⟨500, some [49, 50, 48], none, none⟩ =
      SendResult.err (FcmError.ServerError (some (RetryAfter.Delay 120))) :=
  (send_5xx_server_error ⟨500, some [49, 50, 48], none, none⟩
    ⟨by decide, by decide⟩).trans (by decide)

/-- C5: when the `Retry-After` header is missing, is not valid header
text, or parses as neither a delay nor an HTTP-date, the extracted
retry-after is absent, and a 5xx response then yields `ServerError`
with no retry-after value. -/
theorem retryAfter_absent_soft (resp : HttpResponse)
    (h : resp.retryAfterBytes = none ∨
        (∃ bs, resp.retryAfterBytes = some bs ∧ headerToStr bs = none) ∨
        (∃ bs s, resp.retryAfterBytes = some bs ∧ headerToStr bs = some s ∧
          parseRetryAfter s = none)) :
    extractRetryAfter resp.retryAfterBytes = none ∧
      (500 ≤ resp.status ∧ resp.status ≤ 599 →
        send resp = SendResult.err (FcmError.ServerError none)) := by
  have habs : extractRetryAfter resp.retryAfterBytes = none := by
    rcases h with h | h | h
    · simp [extractRetryAfter, h]
    · obtain ⟨bs, hbs, hts⟩ := h
      simp [extractRetryAfter, hbs, hts]
    · obtain ⟨bs, s, hbs, hts, hp⟩ := h
      simp [extractRetryAfter, hbs, hts, hp]
  refine ⟨habs, fun h5 => ?_⟩
  have hse := send_server_error_of_5xx resp h5.1 h5.2
  rw [habs] at hse
  exact hse

/-- C5 witness: status 500 with no `Retry-After` header yields
`ServerError` with an absent retry-after. -/
theorem retryAfter_absent_soft_witness :
    extractRetryAfter none = none ∧
      send ⟨500, none, none, none⟩ = SendResult.err (FcmError.ServerError none) := by
  have h := retryAfter_absent_soft ⟨500, none, none, none⟩ (Or.inl rfl)
  exact ⟨h.1, h.2 (by decide)⟩

/-- C6: a 200-status response whose parsed body has no error-reason, or
one other than `UNAVAILABLE`/`INTERNAL`, is returned as a success
`Response`, the very parsed value, fields unmodified. -/
theorem send_ok_passthrough (resp : HttpResponse) (fcm : FcmResponse)
    (hs : resp.status = 200) (hb : resp.bodyFcm = some fcm)
    (hu : fcm.error ≠ some ErrorReason.Unavailable)
    (hi : fcm.error ≠ some ErrorReason.InternalServerError) :
    send resp = SendResult.ok fcm := by
  cases he : fcm.error with
  | none => simp [send, hs, hb, he]
  | some er =>
    cases er with
    | Unavailable => exact absurd he hu
    | InternalServerError => exact absurd he hi
    | Other tag => simp [send, hs, hb, he]

/-- C6 witness: a 200 body with no error field and some metadata is
passed through unchanged. -/
theorem send_ok_passthrough_witness :
    send ⟨200, none, some ⟨none, [("name", "projects/p/messages/1")]⟩, none⟩ =
      SendResult.ok ⟨none, [("name", "projects/p/messages/1")]⟩ :=
  send_ok_passthrough ⟨200, none, some ⟨none, [("name", "projects/p/messages/1")]⟩, none⟩
    ⟨none, [("name", "projects/p/messages/1")]⟩ rfl rfl (by decide) (by decide)

/-- C7: a 401-status response yields `Unauthorized`, whatever the bodies
hold (the statement quantifies over all body fields, so the result does
not depend on them and no body is consulted). -/
theorem send_401_unauthorized (resp : HttpResponse) (hs : resp.status = 401) :
    send resp = SendResult.err FcmError.Unauthorized := by
  have h200 : ¬ resp.status = 200 := by omega
  simp [send, h200, hs]

/-- C7 witness: a 401 response carrying a parseable body and body text
still yields `Unauthorized`. -/
theorem send_401_unauthorized_witness :
    send ⟨401, none, some ⟨some ErrorReason.Unavailable, []⟩, some "ignored"⟩ =
      SendResult.err FcmError.Unauthorized :=
  send_401_unauthorized ⟨401, none, some ⟨some ErrorReason.Unavailable, []⟩, some "ignored"⟩ rfl

/-- C8: a response whose status is none of 200, 401, 400 and not 5xx
yields `InvalidMessage` with the generic description `Unknown Error`. -/
theorem send_unknown_status_invalid_message (resp : HttpResponse)
    (h200 : resp.status ≠ 200) (h401 : resp.status ≠ 401) (h400 : resp.status ≠ 400)
    (h5xx : ¬ (500 ≤ resp.status ∧ resp.status ≤ 599)) :
    send resp = SendResult.err (FcmError.InvalidMessage "Unknown Error") := by
  simp [send, h200, h401, h400, h5xx]

/-- C8 witness: status 418 yields the generic `InvalidMessage`. -/
theorem send_unknown_status_invalid_message_witness :
    send ⟨418, none, none, none⟩ =
      SendResult.err (FcmError.InvalidMessage "Unknown Error") :=
  send_unknown_status_invalid_message ⟨418, none, none, none⟩
    (by decide) (by decide) (by decide) (by decide)

/-- C10: a 400-status response with body text `B` yields `InvalidMessage`
whose detail is exactly `Bad Request (` followed by `B`, the opening
parenthesis never being closed. -/
theorem send_badRequest_detail_exact (resp : HttpResponse) (B : String)
    (hs : resp.status = 400) (hb : resp.bodyText = some B) :
    send resp = SendResult.err (FcmError.InvalidMessage ("Bad Request (" ++ B)) := by
  have h200 : ¬ resp.status = 200 := by omega
  have h401 : ¬ resp.status = 401 := by omega
  simp [send, h200, h401, hs, hb]

/-- C9: the outbound body serialized by `send` is exactly the JSON
object with the single top-level field `"message"` holding the
serialized finalized message: as a JSON value, an object whose field
list is `[("message", _)]`, and as rendered text, the serialization of
the finalized message wrapped in `{"message":` … `}`. -/
theorem sendPayload_single_message_field (m : Message) :
    MessageWrapper.toJson ⟨m.finalize⟩ = Json.obj [("message", m.finalize.toJson)] ∧
      sendPayload m = "\x7b\"message\":" ++ renderJson m.finalize.toJson ++ "\x7d" := by
  refine ⟨rfl, ?_⟩
  have h1 : sendPayload m =
      "\x7b" ++ (escapeString "message" ++ ":" ++ renderJson m.finalize.toJson) ++ "\x7d" := by
    simp [sendPayload, MessageWrapper.toJson, renderJson, renderFields]
  have h2 : escapeString "message" = "\"message\"" := by decide
  rw [h1, h2]
  congr 1

/-- C10 witness: body `"project not found"` yields the exact detail
`Bad Request (project not found`. -/
theorem send_badRequest_detail_exact_witness :
    send ⟨400, none, none, some "project not found"⟩ =
      SendResult.err (FcmError.InvalidMessage "Bad Request (project not found") :=
  (send_badRequest_detail_exact ⟨400, none, none, some "project not found"⟩
    "project not found" rfl rfl).trans (by decide)

end FcmRust
